import Mathlib

/-!
# Oasis bridge: client SDK types and the user / witness example flows

A shallow embedding of
* `client-sdk/go/types/transaction.go` (transactions, call results),
* `client-sdk/go/crypto/signature` (public keys of the two schemes),
* `examples/user-witness-flow/main.go` (the `user` and `witness` flows),

followed by theorems about them.

Conventions.  Go byte slices are lists of bytes.  Unsigned machine integers
(`uint16`, `uint32`, `uint64`) are natural numbers; the code compares and
copies them and never does arithmetic on them, so no wrap-around can occur.
A Go `error` result is an `Except String`; a Go function that can abort with
`panic` returns a `Go` value, which tells a returned error from a panic.
-/

namespace OasisBridge

deriving instance DecidableEq for Except

/-- A Go byte slice. -/
abbrev Bytes := List UInt8

/-- Outcome of a Go call that may return normally, return an error, or panic. -/
inductive Go (α : Type) where
  | ok (a : α)
  | err (msg : String)
  | panicked (msg : String)
  deriving DecidableEq, Repr

/-! ## crypto/signature/ed25519 -/

namespace Ed25519

/-- Go `type PublicKey signature.PublicKey`: the key bytes of the oasis-core type. -/
structure PublicKey where
  bytes : Bytes
  deriving DecidableEq, Repr

end Ed25519

/-- The oasis-core signature package, which the Ed25519 wrapper delegates to.
It is an external library: its functions are parameters of the embedding. -/
structure CoreSignature where
  /-- Go `signature.PublicKey.Verify(context, message, sig)` -/
  Verify : Ed25519.PublicKey → Bytes → Bytes → Bytes → Bool
  /-- Go `signature.PublicKey.MarshalBinary()` -/
  MarshalBinary : Ed25519.PublicKey → Except String Bytes
  /-- Go `(*signature.PublicKey).UnmarshalBinary(data)` -/
  UnmarshalBinary : Bytes → Except String Ed25519.PublicKey

namespace Ed25519

/-- Go `func (pk PublicKey) MarshalBinary() ([]byte, error)` -/
def PublicKey.MarshalBinary (core : CoreSignature) (pk : PublicKey) : Go Bytes :=
  match core.MarshalBinary pk with
  | .ok data => .ok data
  | .error e => .err e

/-- Go `func (pk *PublicKey) UnmarshalBinary(data []byte) error`; the decoded key
is returned instead of being written through the receiver. -/
def PublicKey.UnmarshalBinary (core : CoreSignature) (data : Bytes) : Go PublicKey :=
  match core.UnmarshalBinary data with
  | .ok pk => .ok pk
  | .error e => .err e

/-- Go `func (pk PublicKey) Verify(context, message, sig []byte) bool` -/
def PublicKey.Verify (core : CoreSignature) (pk : PublicKey)
    (context message sig : Bytes) : Go Bool :=
  .ok (core.Verify pk context message sig)

end Ed25519

/-! ## crypto/signature/secp256k1 -/

namespace Secp256k1

/-- Go `type PublicKey []byte` -/
structure PublicKey where
  bytes : Bytes
  deriving DecidableEq, Repr

/-- Go `func (pk PublicKey) MarshalBinary() ([]byte, error)`: `panic("not implemented")`. -/
def PublicKey.MarshalBinary (_pk : PublicKey) : Go Bytes :=
  .panicked "not implemented"

/-- Go `func (pk *PublicKey) UnmarshalBinary(data []byte) error`: `panic("not implemented")`. -/
def PublicKey.UnmarshalBinary (_data : Bytes) : Go PublicKey :=
  .panicked "not implemented"

/-- Go `func (pk PublicKey) Verify(context, message, signature []byte) bool`:
the body is `return false`. -/
def PublicKey.Verify (_pk : PublicKey) (_context _message _signature : Bytes) : Go Bool :=
  .ok false

end Secp256k1

/-! ## crypto/signature -/

namespace Signature

/-- Go `type PublicKey struct`: two optional (pointer) fields, one per scheme. -/
structure PublicKey where
  Ed25519 : Option Ed25519.PublicKey
  Secp256k1 : Option Secp256k1.PublicKey
  deriving DecidableEq, Repr

/-- Go `func (pk *PublicKey) Verify(context, message, signature []byte) bool` -/
def PublicKey.Verify (core : CoreSignature) (pk : PublicKey)
    (context message signature : Bytes) : Go Bool :=
  match pk.Ed25519 with
  | some k => k.Verify core context message signature
  | none =>
    match pk.Secp256k1 with
    | some k => k.Verify context message signature
    | none => .ok false

end Signature

/-! ## types/transaction.go -/

/-- Go `type Call struct` -/
structure Call where
  Method : String
  Body : Bytes
  deriving DecidableEq, Repr

/-- Go `type BaseUnits struct` (types/token.go): amount and denomination. -/
structure BaseUnits where
  Amount : Nat
  Denomination : Bytes
  deriving DecidableEq, Repr

/-- Go `var NativeDenomination = Denomination([]byte{})` -/
def NativeDenomination : Bytes := []

/-- Go `func NewBaseUnits(amount, denomination) BaseUnits` -/
def NewBaseUnits (amount : Nat) (denomination : Bytes) : BaseUnits :=
  { Amount := amount, Denomination := denomination }

/-- Go `type Fee struct` -/
structure Fee where
  Amount : BaseUnits
  Gas : Nat
  deriving DecidableEq, Repr

/-- Go `type SignerInfo struct` -/
structure SignerInfo where
  PublicKey : Signature.PublicKey
  Nonce : Nat
  deriving DecidableEq, Repr

/-- Go `type AuthInfo struct` -/
structure AuthInfo where
  SignerInfo : List SignerInfo
  Fee : Fee
  deriving DecidableEq, Repr

/-- Go `type Transaction struct`; `V` is the field of the embedded `cbor.Versioned`. -/
structure Transaction where
  V : Nat
  Call : Call
  AuthInfo : AuthInfo
  Signatures : List Bytes
  deriving DecidableEq, Repr

/-- Go `func (t *Transaction) ValidateBasic() error` -/
def Transaction.ValidateBasic (t : Transaction) : Except String Unit :=
  if t.V ≠ 1 then
    .error "transaction: unsupported version"
  else if t.Signatures.length = 0 then
    .error "transaction: malformed transaction"
  else if t.Signatures.length ≠ t.AuthInfo.SignerInfo.length then
    .error "transaction: malformed transaction"
  else
    .ok ()

/-- Go `type FailedCallResult struct` -/
structure FailedCallResult where
  Module : String
  Code : Nat
  deriving DecidableEq, Repr

/-- Go `func (cr FailedCallResult) String() string`:
`fmt.Sprintf("module: %s code: %d", cr.Module, cr.Code)`. -/
def FailedCallResult.String (cr : FailedCallResult) : String :=
  "module: " ++ cr.Module ++ " code: " ++ toString cr.Code

/-- Go `type CallResult struct`: `Ok` is a raw message, `Failed` a pointer. -/
structure CallResult where
  Ok : Bytes
  Failed : Option FailedCallResult
  deriving DecidableEq, Repr

/-- Go `func (cr *CallResult) IsSuccess() bool` -/
def CallResult.IsSuccess (cr : CallResult) : Bool :=
  cr.Failed.isNone

/-! ## examples/user-witness-flow/main.go: data -/

/-- Go `type Lock struct`: the body of the Lock call. -/
structure Lock where
  Amount : BaseUnits
  deriving DecidableEq, Repr

/-- Go `type LockResult struct` -/
structure LockResult where
  ID : Nat
  deriving DecidableEq, Repr

/-- Go `type Witness struct`: the body of a Witness call. -/
structure Witness where
  ID : Nat
  Signature : Bytes
  deriving DecidableEq, Repr

/-- Go `type LockEvent struct`; `Owner` is the bytes of a `types.Address`. -/
structure LockEvent where
  ID : Nat
  Owner : Bytes
  Amount : BaseUnits
  deriving DecidableEq, Repr

/-- Go `type WitnessesSignedEvent struct` -/
structure WitnessesSignedEvent where
  ID : Nat
  Signatures : List Bytes
  deriving DecidableEq, Repr

/-- A raw runtime event as returned by `rc.GetEvents`: a key and a value. -/
structure Event where
  Key : Bytes
  Value : Bytes
  deriving DecidableEq, Repr

/-- The libraries the flows call and that are not part of these sources: the
CBOR codec of oasis-core and the event-key constructor of the sdk package.
A decoder returns `none` where `cbor.Unmarshal` returns a non-nil error. -/
structure Env where
  /-- Go `sdk.NewEventKey(module, code)` -/
  NewEventKey : String → Nat → Bytes
  /-- Go `cbor.Marshal(Lock{...})` -/
  MarshalLock : Lock → Bytes
  /-- Go `cbor.Marshal(Witness{...})` -/
  MarshalWitness : Witness → Bytes
  /-- Go `cbor.Marshal(tx)` -/
  MarshalTransaction : Transaction → Bytes
  /-- Go `cbor.Unmarshal(raw, &result)` into a `types.CallResult` -/
  UnmarshalCallResult : Bytes → Option CallResult
  /-- Go `cbor.Unmarshal(result.Ok, &lockResult)` -/
  UnmarshalLockResult : Bytes → Option LockResult
  /-- Go `cbor.Unmarshal(ev.Value, &lockEv)` -/
  UnmarshalLockEvent : Bytes → Option LockEvent
  /-- Go `cbor.Unmarshal(ev.Value, &witnessEv)` -/
  UnmarshalWitnessesSignedEvent : Bytes → Option WitnessesSignedEvent

/-- Modelled from the spec: `EventKey.IsEqual` of the sdk package, which is not
among these sources.  The spec: event keys are matched by exact equality, not
by prefix and without wildcards. -/
def EventKey.IsEqual (k other : Bytes) : Bool :=
  k == other

/-- Go `var LockEventKey = sdk.NewEventKey("bridge", 1)` -/
def LockEventKey (env : Env) : Bytes := env.NewEventKey "bridge" 1

/-- Go `var ReleaseEventKey = sdk.NewEventKey("bridge", 2)` -/
def ReleaseEventKey (env : Env) : Bytes := env.NewEventKey "bridge" 2

/-- Go `var WitnessesSignedEventKey = sdk.NewEventKey("bridge", 3)` -/
def WitnessesSignedEventKey (env : Env) : Bytes := env.NewEventKey "bridge" 3

/-- The node as seen through `runtimeClient.RuntimeClient`. -/
structure RuntimeClient where
  /-- Go `rc.WatchBlocks`: whether subscribing succeeds. -/
  WatchBlocks : Except String Unit
  /-- Go `rc.SubmitTx`: the answer to the call made after `n` earlier calls of
  this flow, given the request data; an error is a transport failure. -/
  SubmitTx : Nat → Bytes → Except String Bytes

/-- A block read from `blkCh`, with the answer `rc.GetEvents` gives for its round. -/
structure BlockNotification where
  Round : Nat
  Events : Except String (List Event)

/-- The 64 bytes of the placeholder signature `[]byte("xxxx...")`. -/
def placeholderSignature : Bytes := List.replicate 64 120

/-- The signer list both flows use: one signer with
`PublicKey{Ed25519: &ed25519.PublicKey{}}` (the zero key) and nonce 0. -/
def placeholderSigners : List SignerInfo :=
  [{ PublicKey := { Ed25519 := some ⟨List.replicate 32 0⟩, Secp256k1 := none }, Nonce := 0 }]

/-- The fee both flows use: 10 native base units, gas 1000. -/
def placeholderFee : Fee :=
  { Amount := NewBaseUnits 10 NativeDenomination, Gas := 1000 }

/-- The transaction the user flow builds (main.go, `tx := types.Transaction{...}`). -/
def lockTransaction (env : Env) : Transaction :=
  { V := 1
    Call := { Method := "bridge.Lock"
              Body := env.MarshalLock { Amount := NewBaseUnits 1 NativeDenomination } }
    AuthInfo := { SignerInfo := placeholderSigners, Fee := placeholderFee }
    Signatures := [placeholderSignature] }

/-- The transaction the witness flow builds for one lock event. -/
def witnessTransaction (env : Env) (w : Witness) : Transaction :=
  { V := 1
    Call := { Method := "bridge.Witness", Body := env.MarshalWitness w }
    AuthInfo := { SignerInfo := placeholderSigners, Fee := placeholderFee }
    Signatures := [placeholderSignature] }

/-! ## the witness flow -/

/-- Why a run of the witness flow returned. -/
inductive WitnessExit where
  /-- Go `case <-ctx.Done()`: no further block was taken from the channel -/
  | ctxDone
  /-- Go `rc.WatchBlocks` failed -/
  | watchBlocksFailed
  /-- Go `rc.GetEvents` failed -/
  | getEventsFailed
  /-- Go `rc.SubmitTx` failed -/
  | submitFailed
  /-- the call result did not decode -/
  | callResultUndecodable
  /-- Go `!result.IsSuccess()`, with `result.Failed.String()` -/
  | witnessFailed (err : String)
  deriving DecidableEq, Repr

/-- The loop "Collect lock events" over the events of one block; `lockEvents`
is the slice built so far. -/
def collectLockEvents (env : Env) : List Event → List LockEvent → List LockEvent
  | [], lockEvents => lockEvents
  | ev :: rest, lockEvents =>
    if EventKey.IsEqual (LockEventKey env) ev.Key then
      match env.UnmarshalLockEvent ev.Value with
      | none => collectLockEvents env rest lockEvents
      | some lockEv => collectLockEvents env rest (lockEvents ++ [lockEv])
    else
      collectLockEvents env rest lockEvents

/-- Inner loop of the insertion sort of Go's `sort` package,
`for j := i; j > a && less(j, j-1); j-- { swap(j, j-1) }`: the element `x` at
index `i` moves left past every neighbour it is less than.  The second argument
is the part of the slice before `x`, nearest element first. -/
def sinkLeft {α : Type} (less : α → α → Bool) (x : α) : List α → List α
  | [] => [x]
  | y :: before => if less x y then y :: sinkLeft less x before else x :: y :: before

/-- Go `sort.Slice(data, less)` of the standard library, which is not part of
these sources.  It is modelled by the library's insertion sort
(`insertionSortLessFunc`: `for i := a + 1; i < b; i++`, with `sinkLeft` as the
inner loop), the routine the library runs on slices of at most 12 elements.
The library does not promise stability and sorts longer slices by other
routines; the theorems below speak only of the sequence of identifiers, which
is the same for every routine that sorts by `less`. -/
def sortSlice {α : Type} (less : α → α → Bool) (data : List α) : List α :=
  (data.foldl (fun before x => sinkLeft less x before) []).reverse

/-- The comparison passed to `sort.Slice`: `lockEvents[i].ID < lockEvents[j].ID`. -/
def lockEventLess (a b : LockEvent) : Bool := decide (a.ID < b.ID)

/-- The loop `for _, ev := range lockEvents` that submits one `bridge.Witness`
transaction per lock event.  `sent` lists the bodies of the Witness calls
submitted so far, oldest first.  The result is the extended list and, if the
flow returned inside the loop, the reason. -/
def submitWitnesses (env : Env) (rc : RuntimeClient) :
    List LockEvent → List Witness → List Witness × Option WitnessExit
  | [], sent => (sent, none)
  | ev :: rest, sent =>
    let body : Witness := { ID := ev.ID, Signature := placeholderSignature }
    let tx := witnessTransaction env body
    match rc.SubmitTx sent.length (env.MarshalTransaction tx) with
    | .error _ => (sent ++ [body], some .submitFailed)
    | .ok raw =>
      match env.UnmarshalCallResult raw with
      | none => (sent ++ [body], some .callResultUndecodable)
      | some result =>
        if !result.IsSuccess then
          (sent ++ [body], some (.witnessFailed
            (match result.Failed with
             | some f => f.String
             | none => "")))
        else
          submitWitnesses env rc rest (sent ++ [body])

/-- The body of `case blk := <-blkCh:` for one block whose events were fetched. -/
def witnessBlock (env : Env) (rc : RuntimeClient) (events : List Event)
    (sent : List Witness) : List Witness × Option WitnessExit :=
  let lockEvents := collectLockEvents env events []
  if lockEvents.length = 0 then
    (sent, none)
  else
    submitWitnesses env rc (sortSlice lockEventLess lockEvents) sent

/-- The `for { select { ... } }` loop of `witness` over the blocks the channel
delivers; when the list is exhausted `ctx.Done()` is selected. -/
def witnessLoop (env : Env) (rc : RuntimeClient) :
    List BlockNotification → List Witness → List Witness × WitnessExit
  | [], sent => (sent, .ctxDone)
  | blk :: rest, sent =>
    match blk.Events with
    | .error _ => (sent, .getEventsFailed)
    | .ok events =>
      match witnessBlock env rc events sent with
      | (sent', some exit) => (sent', exit)
      | (sent', none) => witnessLoop env rc rest sent'

/-- Go `func witness(ctx, wg, rc, runtimeID)`: the Witness call bodies submitted,
in order, and the reason the flow returned. -/
def witness (env : Env) (rc : RuntimeClient) (blocks : List BlockNotification) :
    List Witness × WitnessExit :=
  match rc.WatchBlocks with
  | .error _ => ([], .watchBlocksFailed)
  | .ok _ => witnessLoop env rc blocks []

/-! ## the user flow -/

/-- Why a run of the user flow returned. -/
inductive UserExit where
  /-- Go `rc.WatchBlocks` failed -/
  | watchBlocksFailed
  /-- Go `rc.SubmitTx` failed -/
  | submitFailed
  /-- the call result did not decode -/
  | callResultUndecodable
  /-- Go `!result.IsSuccess()`: "lock transaction failed", with `result.Failed.String()` -/
  | lockFailed (err : String)
  /-- Go `result.Ok` did not decode as a `LockResult` -/
  | lockResultUndecodable
  /-- Go `case <-ctx.Done()`: no further block was taken from the channel -/
  | ctxDone
  /-- Go `rc.GetEvents` failed -/
  | getEventsFailed
  /-- "got witness signatures": a matching event was found, with its signatures -/
  | witnessed (sigs : List Bytes)
  deriving DecidableEq, Repr

/-- What a run of the user flow did: the rounds it called `rc.GetEvents` for,
the events its scan loop iterated over (both oldest first), and its exit. -/
structure UserRun where
  fetched : List Nat
  inspected : List Event
  exit : UserExit
  deriving DecidableEq, Repr

/-- The loop `for _, ev := range events` of the user flow over one block:
the events iterated over so far and, if the flow returned at a matching
event, that event's signatures. -/
def scanEvents (env : Env) (lockID : Nat) :
    List Event → List Event → List Event × Option (List Bytes)
  | [], inspected => (inspected, none)
  | ev :: rest, inspected =>
    if EventKey.IsEqual (WitnessesSignedEventKey env) ev.Key then
      match env.UnmarshalWitnessesSignedEvent ev.Value with
      | none => scanEvents env lockID rest (inspected ++ [ev])
      | some witnessEv =>
        if witnessEv.ID = lockID then
          (inspected ++ [ev], some witnessEv.Signatures)
        else
          scanEvents env lockID rest (inspected ++ [ev])
    else
      scanEvents env lockID rest (inspected ++ [ev])

/-- The loop "Wait for a WitnessesSigned event" over the blocks the channel
delivers; when the list is exhausted `ctx.Done()` is selected. -/
def waitLoop (env : Env) (lockID : Nat) :
    List BlockNotification → List Nat → List Event → UserRun
  | [], fetched, inspected => { fetched, inspected, exit := .ctxDone }
  | blk :: rest, fetched, inspected =>
    match blk.Events with
    | .error _ => { fetched := fetched ++ [blk.Round], inspected, exit := .getEventsFailed }
    | .ok events =>
      match scanEvents env lockID events inspected with
      | (inspected', some sigs) =>
        { fetched := fetched ++ [blk.Round], inspected := inspected', exit := .witnessed sigs }
      | (inspected', none) => waitLoop env lockID rest (fetched ++ [blk.Round]) inspected'

/-- Go `func user(ctx, wg, rc, runtimeID)` -/
def user (env : Env) (rc : RuntimeClient) (blocks : List BlockNotification) : UserRun :=
  match rc.WatchBlocks with
  | .error _ => { fetched := [], inspected := [], exit := .watchBlocksFailed }
  | .ok _ =>
    match rc.SubmitTx 0 (env.MarshalTransaction (lockTransaction env)) with
    | .error _ => { fetched := [], inspected := [], exit := .submitFailed }
    | .ok raw =>
      match env.UnmarshalCallResult raw with
      | none => { fetched := [], inspected := [], exit := .callResultUndecodable }
      | some result =>
        if !result.IsSuccess then
          { fetched := [], inspected := [],
            exit := .lockFailed (match result.Failed with
                                 | some f => f.String
                                 | none => "") }
        else
          match env.UnmarshalLockResult result.Ok with
          | none => { fetched := [], inspected := [], exit := .lockResultUndecodable }
          | some lockResult => waitLoop env lockResult.ID blocks [] []

/-! ## decoding a `signature.PublicKey` -/

/-- The fields present in the encoded map of a `signature.PublicKey`
(`json:"ed25519,omitempty"`, `json:"secp256k1,omitempty"`), each with its byte
string. -/
structure PublicKeyEncoding where
  ed25519 : Option Bytes
  secp256k1 : Option Bytes
  deriving DecidableEq, Repr

/-- Decoding one field of the encoded map: a field absent from the map stays
nil, a field present is decoded by the `UnmarshalBinary` of its type. -/
def decodeField {α : Type} (field : Option Bytes) (unmarshal : Bytes → Go α) :
    Go (Option α) :=
  match field with
  | none => .ok none
  | some data =>
    match unmarshal data with
    | .ok k => .ok (some k)
    | .err e => .err e
    | .panicked e => .panicked e

/-- Decoding a `signature.PublicKey`.  The type has no decoder of its own
(signature.go: "TODO: Override deserialization to make sure that exactly one
type is set"), so the codec's struct decoding applies, field by field.  When a
field fails to decode the codec keeps the error, still decodes the remaining
field, and returns the first error at the end; a panic aborts the decoding at
once.  The fields are taken in the order `ed25519`, `secp256k1`; since the
Ed25519 `UnmarshalBinary` returns or fails but does not panic, the other order
gives the same results. -/
def Signature.PublicKey.Unmarshal (core : CoreSignature) (enc : PublicKeyEncoding) :
    Go Signature.PublicKey :=
  match decodeField enc.ed25519 (Ed25519.PublicKey.UnmarshalBinary core) with
  | .panicked e => .panicked e
  | .ok ed =>
    match decodeField enc.secp256k1 Secp256k1.PublicKey.UnmarshalBinary with
    | .ok secp => .ok { Ed25519 := ed, Secp256k1 := secp }
    | .err e => .err e
    | .panicked e => .panicked e
  | .err first =>
    match decodeField enc.secp256k1 Secp256k1.PublicKey.UnmarshalBinary with
    | .ok _ => .err first
    | .err _ => .err first
    | .panicked e => .panicked e

/-! ## notions used to state the properties of the flows -/

/-- The lock event a raw event stands for, in the spec's words: the entry's
key equals `LockEventKey` and its value decodes as a `LockEvent`. -/
def decodedLockEvent (env : Env) (ev : Event) : Option LockEvent :=
  if ev.Key = LockEventKey env then env.UnmarshalLockEvent ev.Value else none

/-- The witnesses-signed event a raw event stands for: the entry's key equals
`WitnessesSignedEventKey` and its value decodes as a `WitnessesSignedEvent`. -/
def decodedSignedEvent (env : Env) (ev : Event) : Option WitnessesSignedEvent :=
  if ev.Key = WitnessesSignedEventKey env then
    env.UnmarshalWitnessesSignedEvent ev.Value
  else none

/-- The identifiers of the lock events decoded from a list of raw events, in
the order of the events. -/
def decodedLockIDs (env : Env) (events : List Event) : List Nat :=
  (events.filterMap (decodedLockEvent env)).map (fun ev => ev.ID)

/-- The body of the Witness call for a lock identifier. -/
def witnessBody (id : Nat) : Witness :=
  { ID := id, Signature := placeholderSignature }

/-- Every submission succeeds: whatever is submitted and whenever, the node
returns a call result that decodes and has `Failed` unset. -/
def EverySubmissionSucceeds (env : Env) (rc : RuntimeClient) : Prop :=
  ∀ (n : Nat) (data : Bytes), ∃ raw result,
    rc.SubmitTx n data = .ok raw ∧ env.UnmarshalCallResult raw = some result ∧
      result.Failed = none

/-- The lock identifiers decoded from one delivered block, in ascending order
(duplicates kept); none when `rc.GetEvents` fails for the block. -/
def sortedLockIDs (env : Env) (blk : BlockNotification) : List Nat :=
  match blk.Events with
  | .ok events => (decodedLockIDs env events).insertionSort (· ≤ ·)
  | .error _ => []

/-- A run of (part of) the witness flow that started with `sent` already
submitted and ended with `out` submitted and exit `exit` halts at a rejection:
`out` extends `sent`, and a new submission whose call result has `Failed`
populated is the last one, the exit reporting that failure. -/
def HaltsAtRejection (env : Env) (rc : RuntimeClient) (sent out : List Witness)
    (exit : Option WitnessExit) : Prop :=
  (∃ more, out = sent ++ more) ∧
  ∀ (i : Nat) (w : Witness) (raw : Bytes) (result : CallResult) (f : FailedCallResult),
    sent.length ≤ i → out[i]? = some w →
    rc.SubmitTx i (env.MarshalTransaction (witnessTransaction env w)) = .ok raw →
    env.UnmarshalCallResult raw = some result → result.Failed = some f →
    out.length = i + 1 ∧ exit = some (.witnessFailed f.String)

/-- Whether a raw event is the one the user flow waits for: it decodes as a
witnesses-signed event whose identifier is `lockID`. -/
def isAwaitedEvent (env : Env) (lockID : Nat) (ev : Event) : Bool :=
  match decodedSignedEvent env ev with
  | some w => decide (w.ID = lockID)
  | none => false

/-- The events of a delivered block; none when `rc.GetEvents` fails for it. -/
def eventsOf (blk : BlockNotification) : List Event :=
  match blk.Events with
  | .ok events => events
  | .error _ => []

/-! ## a concrete environment for the worked examples

A toy codec and node, small enough to evaluate: an event value of one byte
decodes to the event with that identifier, anything else fails to decode. -/

/-- A toy oasis-core signature package: keys are 32 bytes, nothing verifies. -/
def exampleCore : CoreSignature where
  Verify := fun _ _ _ _ => false
  MarshalBinary := fun pk => .ok pk.bytes
  UnmarshalBinary := fun data =>
    if data.length = 32 then .ok ⟨data⟩ else .error "signature: malformed public key"

/-- A toy codec. -/
def exampleEnv : Env where
  NewEventKey := fun module code =>
    module.toList.map (fun c => UInt8.ofNat c.toNat) ++ [UInt8.ofNat code]
  MarshalLock := fun l => [UInt8.ofNat l.Amount.Amount]
  MarshalWitness := fun w => UInt8.ofNat w.ID :: w.Signature
  MarshalTransaction := fun t => t.Call.Body
  UnmarshalCallResult := fun raw =>
    match raw with
    | 0 :: ok => some { Ok := ok, Failed := none }
    | 1 :: code :: _ => some { Ok := [], Failed := some { Module := "bridge", Code := code.toNat } }
    | _ => none
  UnmarshalLockResult := fun raw =>
    match raw with
    | [id] => some { ID := id.toNat }
    | _ => none
  UnmarshalLockEvent := fun value =>
    match value with
    | [id] => some { ID := id.toNat, Owner := [], Amount := NewBaseUnits 1 NativeDenomination }
    | _ => none
  UnmarshalWitnessesSignedEvent := fun value =>
    match value with
    | [id] => some { ID := id.toNat, Signatures := [placeholderSignature] }
    | _ => none

/-- A raw lock event of the toy codec with the given identifier. -/
def exampleLockEvent (id : UInt8) : Event :=
  { Key := LockEventKey exampleEnv, Value := [id] }

/-- A raw witnesses-signed event of the toy codec with the given identifier. -/
def exampleSignedEvent (id : UInt8) : Event :=
  { Key := WitnessesSignedEventKey exampleEnv, Value := [id] }

/-- A node that accepts every transaction: each call result is a success. -/
def acceptingClient : RuntimeClient where
  WatchBlocks := .ok ()
  SubmitTx := fun _ _ => .ok [0, 7]

/-- A node whose first call result is the failure (module "bridge", code 1)
and that accepts every later transaction. -/
def rejectingClient : RuntimeClient where
  WatchBlocks := .ok ()
  SubmitTx := fun n _ => if n = 0 then .ok [1, 1] else .ok [0, 7]

/-- A transaction with version 2, one signer and one signature. -/
def exampleTxVersion2 : Transaction :=
  { V := 2
    Call := { Method := "bridge.Lock", Body := [] }
    AuthInfo := { SignerInfo := placeholderSigners, Fee := placeholderFee }
    Signatures := [placeholderSignature] }

/-- A transaction with version 1, one signer and no signature. -/
def exampleTxUnsigned : Transaction :=
  { V := 1
    Call := { Method := "bridge.Lock", Body := [] }
    AuthInfo := { SignerInfo := placeholderSigners, Fee := placeholderFee }
    Signatures := [] }

/-- A block whose lock events carry the identifiers 5 and 2, with an event of
another key and a lock event that does not decode between them. -/
def exampleBlockA : BlockNotification :=
  { Round := 1
    Events := .ok [exampleLockEvent 5, { Key := ReleaseEventKey exampleEnv, Value := [9] },
      { Key := LockEventKey exampleEnv, Value := [] }, exampleLockEvent 2] }

/-- A later block whose lock events carry the identifiers 8 and 2. -/
def exampleBlockB : BlockNotification :=
  { Round := 2, Events := .ok [exampleLockEvent 8, exampleLockEvent 2] }

/-- A block with a witnesses-signed event for identifier 9, a malformed one,
a lock event, the witnesses-signed event for identifier 7 and one more event. -/
def exampleBlockC : BlockNotification :=
  { Round := 3
    Events := .ok [exampleSignedEvent 9, { Key := WitnessesSignedEventKey exampleEnv, Value := [] },
      exampleLockEvent 7, exampleSignedEvent 7, exampleSignedEvent 7] }

/-! ## theorems: transactions -/

/-- C1: `ValidateBasic` returns no error exactly when the version is 1, the
signature list is non-empty and it is as long as the signer list; so an
accepted transaction has at least one signer and as many signatures as signers. -/
theorem C1_validateBasic_ok_iff (t : Transaction) :
    (t.ValidateBasic = .ok () ↔
      t.V = 1 ∧ 0 < t.Signatures.length ∧
        t.Signatures.length = t.AuthInfo.SignerInfo.length) ∧
    (t.ValidateBasic = .ok () →
      0 < t.AuthInfo.SignerInfo.length ∧
        t.Signatures.length = t.AuthInfo.SignerInfo.length) := by
  have key : t.ValidateBasic = .ok () ↔
      t.V = 1 ∧ 0 < t.Signatures.length ∧
        t.Signatures.length = t.AuthInfo.SignerInfo.length := by
    unfold Transaction.ValidateBasic
    by_cases hv : t.V = 1
    · by_cases hs : t.Signatures.length = 0
      · simp [hv, hs]
      · by_cases hl : t.Signatures.length = t.AuthInfo.SignerInfo.length
        · have hpos : 0 < t.Signatures.length := Nat.pos_of_ne_zero hs
          simp only [hv, hs, ne_eq, not_true_eq_false, if_false]
          rw [if_neg (not_not.mpr hl)]
          exact ⟨fun _ => ⟨trivial, hpos, hl⟩, fun _ => rfl⟩
        · simp [hv, hs, hl]
    · simp [hv]
  refine ⟨key, fun h => ?_⟩
  obtain ⟨_, hpos, hlen⟩ := key.mp h
  exact ⟨hlen ▸ hpos, hlen⟩

/-- C2 (as stated, refuted): a version-2 transaction and an unsigned version-1
transaction are both rejected, but with different errors. -/
theorem C2_errors_differ :
    exampleTxVersion2.ValidateBasic = .error "transaction: unsupported version" ∧
    exampleTxUnsigned.ValidateBasic = .error "transaction: malformed transaction" ∧
    exampleTxVersion2.ValidateBasic ≠ exampleTxUnsigned.ValidateBasic := by
  decide

/-- C2 (amended): a transaction whose version is not 1 is rejected with
"transaction: unsupported version"; a version-1 transaction with an empty
signature list, or with a signature count different from the signer count, is
rejected with "transaction: malformed transaction". -/
theorem C2_validateBasic_errors (t : Transaction) :
    (t.V ≠ 1 → t.ValidateBasic = .error "transaction: unsupported version") ∧
    (t.V = 1 →
      (t.Signatures.length = 0 ∨ t.Signatures.length ≠ t.AuthInfo.SignerInfo.length) →
      t.ValidateBasic = .error "transaction: malformed transaction") := by
  refine ⟨fun hv => ?_, fun hv hs => ?_⟩
  · simp [Transaction.ValidateBasic, hv]
  · unfold Transaction.ValidateBasic
    rcases hs with hs | hs
    · simp [hv, hs]
    · by_cases h0 : t.Signatures.length = 0
      · simp [hv, h0]
      · simp [hv, h0, hs]

/-- C2 (amended), at the two example transactions. -/
theorem C2_validateBasic_errors_witness :
    exampleTxVersion2.ValidateBasic = .error "transaction: unsupported version" ∧
    exampleTxUnsigned.ValidateBasic = .error "transaction: malformed transaction" :=
  ⟨(C2_validateBasic_errors exampleTxVersion2).1 (by decide),
   (C2_validateBasic_errors exampleTxUnsigned).2 (by decide) (Or.inl (by decide))⟩

/-! ## theorems: public keys -/

/-- C9: `PublicKey.Verify` returns false, without panicking, for a key with
only the Secp256k1 variant populated and for a key with no variant populated,
whatever the context, message and signature. -/
theorem C9_verify_fails_closed (core : CoreSignature) (k : Secp256k1.PublicKey)
    (context message signature : Bytes) :
    Signature.PublicKey.Verify core { Ed25519 := none, Secp256k1 := some k }
        context message signature = .ok false ∧
    Signature.PublicKey.Verify core { Ed25519 := none, Secp256k1 := none }
        context message signature = .ok false :=
  ⟨rfl, rfl⟩

/-- C10 (the code at the failing input): decoding an encoding in which neither
variant is present succeeds and yields a key with no variant populated; and
with both present the decoder panics in the unimplemented Secp256k1
`UnmarshalBinary` instead of returning an error, whether the Ed25519 field is
a well-formed 32-byte key or a malformed one. -/
theorem C10_unmarshal_accepts_no_variant :
    Signature.PublicKey.Unmarshal exampleCore { ed25519 := none, secp256k1 := none }
      = .ok { Ed25519 := none, Secp256k1 := none } ∧
    Signature.PublicKey.Unmarshal exampleCore
        { ed25519 := some (List.replicate 32 0), secp256k1 := some [2, 1] }
      = .panicked "not implemented" ∧
    Signature.PublicKey.Unmarshal exampleCore
        { ed25519 := some [1], secp256k1 := some [2, 1] }
      = .panicked "not implemented" := by
  decide

/-! ## lemmas: collecting and sorting lock events -/

theorem collectLockEvents_eq (env : Env) (events : List Event) (lockEvents : List LockEvent) :
    collectLockEvents env events lockEvents
      = lockEvents ++ events.filterMap (decodedLockEvent env) := by
  induction events generalizing lockEvents with
  | nil => simp [collectLockEvents]
  | cons ev rest ih =>
    unfold collectLockEvents
    by_cases hk : ev.Key = LockEventKey env
    · have hk' : EventKey.IsEqual (LockEventKey env) ev.Key = true := by
        simp [EventKey.IsEqual, hk]
      rw [if_pos hk']
      cases hd : env.UnmarshalLockEvent ev.Value with
      | none =>
        simp only []
        rw [ih, List.filterMap_cons_none]
        simp [decodedLockEvent, hk, hd]
      | some lockEv =>
        simp only []
        rw [ih, List.filterMap_cons_some (b := lockEv)]
        · simp
        · simp [decodedLockEvent, hk, hd]
    · have hk' : ¬ EventKey.IsEqual (LockEventKey env) ev.Key = true := by
        simp only [EventKey.IsEqual, beq_iff_eq]
        exact fun h => hk h.symm
      rw [if_neg hk', ih, List.filterMap_cons_none]
      simp [decodedLockEvent, hk]

theorem sinkLeft_perm {α : Type} (less : α → α → Bool) (x : α) (before : List α) :
    (sinkLeft less x before).Perm (x :: before) := by
  induction before with
  | nil => simp [sinkLeft]
  | cons y ys ih =>
    unfold sinkLeft
    by_cases h : less x y = true
    · rw [if_pos h]
      exact (List.Perm.cons y ih).trans (List.Perm.swap x y ys)
    · rw [if_neg h]

theorem foldl_sinkLeft_perm {α : Type} (less : α → α → Bool) (data before : List α) :
    (data.foldl (fun before x => sinkLeft less x before) before).Perm (data ++ before) := by
  induction data generalizing before with
  | nil => simp
  | cons x xs ih =>
    simp only [List.foldl_cons]
    refine (ih (sinkLeft less x before)).trans ?_
    refine (List.Perm.append_left xs (sinkLeft_perm less x before)).trans ?_
    simp

theorem sortSlice_perm {α : Type} (less : α → α → Bool) (data : List α) :
    (sortSlice less data).Perm data := by
  unfold sortSlice
  refine (List.reverse_perm _).trans ?_
  simpa using foldl_sinkLeft_perm less data []

theorem sinkLeft_descending (x : LockEvent) (before : List LockEvent)
    (h : before.Pairwise (fun a b => b.ID ≤ a.ID)) :
    (sinkLeft lockEventLess x before).Pairwise (fun a b => b.ID ≤ a.ID) := by
  induction before with
  | nil => simp [sinkLeft]
  | cons y ys ih =>
    unfold sinkLeft
    obtain ⟨hy, hys⟩ := List.pairwise_cons.mp h
    by_cases hl : lockEventLess x y = true
    · rw [if_pos hl]
      have hxy : x.ID < y.ID := by simpa [lockEventLess] using hl
      refine List.pairwise_cons.mpr ⟨fun z hz => ?_, ih hys⟩
      rcases List.mem_cons.mp ((sinkLeft_perm lockEventLess x ys).mem_iff.mp hz) with hz | hz
      · exact hz ▸ Nat.le_of_lt hxy
      · exact hy z hz
    · rw [if_neg hl]
      have hyx : y.ID ≤ x.ID := by
        have : ¬ x.ID < y.ID := by simpa [lockEventLess] using hl
        omega
      refine List.pairwise_cons.mpr ⟨fun z hz => ?_, h⟩
      rcases List.mem_cons.mp hz with hz | hz
      · exact hz ▸ hyx
      · exact Nat.le_trans (hy z hz) hyx

theorem foldl_sinkLeft_descending (data before : List LockEvent)
    (h : before.Pairwise (fun a b => b.ID ≤ a.ID)) :
    (data.foldl (fun before x => sinkLeft lockEventLess x before) before).Pairwise
      (fun a b => b.ID ≤ a.ID) := by
  induction data generalizing before with
  | nil => exact h
  | cons x xs ih =>
    simp only [List.foldl_cons]
    exact ih _ (sinkLeft_descending x before h)

theorem sortSlice_ascending (data : List LockEvent) :
    ((sortSlice lockEventLess data).map (fun ev => ev.ID)).Sorted (· ≤ ·) := by
  unfold sortSlice List.Sorted
  rw [List.pairwise_map, List.pairwise_reverse]
  exact foldl_sinkLeft_descending data [] List.Pairwise.nil

/-! ## lemmas: the witness flow when every submission succeeds -/

theorem submitWitnesses_all_succeed (env : Env) (rc : RuntimeClient)
    (h : EverySubmissionSucceeds env rc) (lockEvents : List LockEvent) (sent : List Witness) :
    submitWitnesses env rc lockEvents sent
      = (sent ++ lockEvents.map (fun ev => witnessBody ev.ID), none) := by
  induction lockEvents generalizing sent with
  | nil => simp [submitWitnesses]
  | cons ev rest ih =>
    obtain ⟨raw, result, hsub, hdec, hok⟩ :=
      h sent.length (env.MarshalTransaction
        (witnessTransaction env { ID := ev.ID, Signature := placeholderSignature }))
    unfold submitWitnesses
    simp only [hsub, hdec, CallResult.IsSuccess, hok, Option.isNone_none, Bool.not_true,
      Bool.false_eq_true, if_false]
    rw [ih]
    simp [witnessBody]

theorem witnessBlock_all_succeed (env : Env) (rc : RuntimeClient)
    (h : EverySubmissionSucceeds env rc) (events : List Event) (sent : List Witness) :
    witnessBlock env rc events sent
      = (sent ++ ((sortSlice lockEventLess (events.filterMap (decodedLockEvent env))).map
          (fun ev => ev.ID)).map witnessBody, none) := by
  unfold witnessBlock
  simp only [collectLockEvents_eq, List.nil_append]
  by_cases h0 : (events.filterMap (decodedLockEvent env)).length = 0
  · rw [if_pos h0]
    have : events.filterMap (decodedLockEvent env) = [] := List.length_eq_zero.mp h0
    simp [this, sortSlice]
  · rw [if_neg h0, submitWitnesses_all_succeed env rc h]
    simp [List.map_map, Function.comp_def]

theorem sortSlice_ids_eq (data : List LockEvent) :
    (sortSlice lockEventLess data).map (fun ev => ev.ID)
      = (data.map (fun ev => ev.ID)).insertionSort (· ≤ ·) := by
  refine List.eq_of_perm_of_sorted (r := (· ≤ ·)) ?_ (sortSlice_ascending data)
    (List.sorted_insertionSort _ _)
  exact ((sortSlice_perm lockEventLess data).map _).trans (List.perm_insertionSort _ _).symm

theorem witnessLoop_all_succeed (env : Env) (rc : RuntimeClient)
    (h : EverySubmissionSucceeds env rc) (blocks : List BlockNotification)
    (hev : ∀ b ∈ blocks, ∃ events, b.Events = .ok events) (sent : List Witness) :
    witnessLoop env rc blocks sent
      = (sent ++ (blocks.flatMap (sortedLockIDs env)).map witnessBody, .ctxDone) := by
  induction blocks generalizing sent with
  | nil => simp [witnessLoop]
  | cons blk rest ih =>
    obtain ⟨events, hevents⟩ := hev blk (List.mem_cons_self _ _)
    unfold witnessLoop
    simp only [hevents, witnessBlock_all_succeed env rc h]
    rw [ih (fun b hb => hev b (List.mem_cons_of_mem _ hb))]
    simp [sortedLockIDs, hevents, sortSlice_ids_eq, decodedLockIDs]

/-! ## lemmas: the witness flow at a rejected submission -/

theorem submitWitnesses_halts (env : Env) (rc : RuntimeClient)
    (lockEvents : List LockEvent) (sent : List Witness) :
    HaltsAtRejection env rc sent (submitWitnesses env rc lockEvents sent).1
      (submitWitnesses env rc lockEvents sent).2 := by
  induction lockEvents generalizing sent with
  | nil =>
    refine ⟨⟨[], by simp [submitWitnesses]⟩, ?_⟩
    intro i w raw result f hi hw
    simp only [submitWitnesses] at hw
    have := List.getElem?_eq_none hi
    simp [this] at hw
  | cons ev rest ih =>
    -- the submission made for `ev`, at index `sent.length`
    have last : ∀ (i : Nat) (w : Witness), sent.length ≤ i →
        (sent ++ [({ ID := ev.ID, Signature := placeholderSignature } : Witness)])[i]? = some w →
        i = sent.length ∧ w = { ID := ev.ID, Signature := placeholderSignature } := by
      intro i w hi hw
      rcases Nat.eq_or_lt_of_le hi with heq | hlt
      · subst heq
        simp at hw
        exact ⟨rfl, hw.symm⟩
      · have : (sent ++ [({ ID := ev.ID, Signature := placeholderSignature } : Witness)])[i]?
            = none := List.getElem?_eq_none (by simp; omega)
        simp [this] at hw
    cases hsub : rc.SubmitTx sent.length (env.MarshalTransaction
        (witnessTransaction env { ID := ev.ID, Signature := placeholderSignature })) with
    | error e =>
      unfold submitWitnesses
      simp only [hsub]
      refine ⟨⟨[_], rfl⟩, ?_⟩
      intro i w raw result f hi hw hs
      obtain ⟨rfl, rfl⟩ := last i w hi hw
      rw [hsub] at hs
      cases hs
    | ok raw0 =>
      cases hdec : env.UnmarshalCallResult raw0 with
      | none =>
        unfold submitWitnesses
        simp only [hsub, hdec]
        refine ⟨⟨[_], rfl⟩, ?_⟩
        intro i w raw result f hi hw hs hd
        obtain ⟨rfl, rfl⟩ := last i w hi hw
        rw [hsub] at hs
        cases hs
        rw [hdec] at hd
        cases hd
      | some result0 =>
        cases hf : result0.Failed with
        | some f0 =>
          unfold submitWitnesses
          simp only [hsub, hdec, CallResult.IsSuccess, hf, Option.isNone_some, Bool.not_false,
            if_true]
          refine ⟨⟨[_], rfl⟩, ?_⟩
          intro i w raw result f hi hw hs hd hfail
          obtain ⟨rfl, rfl⟩ := last i w hi hw
          rw [hsub] at hs
          cases hs
          rw [hdec] at hd
          cases hd
          rw [hf] at hfail
          cases hfail
          exact ⟨by simp, rfl⟩
        | none =>
          unfold submitWitnesses
          simp only [hsub, hdec, CallResult.IsSuccess, hf, Option.isNone_none, Bool.not_true,
            Bool.false_eq_true, if_false]
          obtain ⟨⟨more, hmore⟩, hrest⟩ :=
            ih (sent ++ [{ ID := ev.ID, Signature := placeholderSignature }])
          refine ⟨⟨{ ID := ev.ID, Signature := placeholderSignature } :: more,
            by rw [hmore]; simp⟩, ?_⟩
          intro i w raw result f hi hw hs hd hfail
          rcases Nat.eq_or_lt_of_le hi with heq | hlt
          · subst heq
            have hat : (sent ++ [({ ID := ev.ID, Signature := placeholderSignature } : Witness)]
                ++ more)[sent.length]?
                = some { ID := ev.ID, Signature := placeholderSignature } := by
              rw [List.append_assoc, List.getElem?_append_right (Nat.le_refl _)]
              simp
            rw [hmore, hat] at hw
            cases hw
            rw [hsub] at hs
            cases hs
            rw [hdec] at hd
            cases hd
            rw [hf] at hfail
            cases hfail
          · exact hrest i w raw result f (by simp; omega) hw hs hd hfail

theorem witnessBlock_halts (env : Env) (rc : RuntimeClient)
    (events : List Event) (sent : List Witness) :
    HaltsAtRejection env rc sent (witnessBlock env rc events sent).1
      (witnessBlock env rc events sent).2 := by
  unfold witnessBlock
  by_cases h0 : (collectLockEvents env events []).length = 0
  · simp only [h0, if_true]
    refine ⟨⟨[], by simp⟩, ?_⟩
    intro i w raw result f hi hw
    have := List.getElem?_eq_none hi
    simp [this] at hw
  · simp only [h0, if_false]
    exact submitWitnesses_halts env rc _ sent

theorem witnessLoop_halts (env : Env) (rc : RuntimeClient)
    (blocks : List BlockNotification) (sent : List Witness) :
    HaltsAtRejection env rc sent (witnessLoop env rc blocks sent).1
      (some (witnessLoop env rc blocks sent).2) := by
  induction blocks generalizing sent with
  | nil =>
    refine ⟨⟨[], by simp [witnessLoop]⟩, ?_⟩
    intro i w raw result f hi hw
    simp only [witnessLoop] at hw
    have := List.getElem?_eq_none hi
    simp [this] at hw
  | cons blk rest ih =>
    cases hev : blk.Events with
    | error e =>
      unfold witnessLoop
      simp only [hev]
      refine ⟨⟨[], by simp⟩, ?_⟩
      intro i w raw result f hi hw
      have := List.getElem?_eq_none hi
      simp [this] at hw
    | ok events =>
      have hblk := witnessBlock_halts env rc events sent
      cases hb : witnessBlock env rc events sent with
      | mk sent' exit =>
        rw [hb] at hblk
        cases exit with
        | some e =>
          unfold witnessLoop
          simp only [hev, hb]
          exact hblk
        | none =>
          unfold witnessLoop
          simp only [hev, hb]
          obtain ⟨⟨more, hmore⟩, hnone⟩ := hblk
          obtain ⟨⟨more', hmore'⟩, hrest⟩ := ih sent'
          simp only at hmore
          refine ⟨⟨more ++ more', by rw [hmore', hmore, List.append_assoc]⟩, ?_⟩
          intro i w raw result f hi hw hs hd hfail
          by_cases hlt : i < sent'.length
          · have hw' : sent'[i]? = some w := by
              rw [hmore', List.getElem?_append_left hlt] at hw
              exact hw
            have := (hnone i w raw result f hi hw' hs hd hfail).2
            cases this
          · exact hrest i w raw result f (Nat.le_of_not_lt hlt) hw hs hd hfail

/-! ## theorems: the witness flow -/

/-- C6: the lock events the witness flow collects from the raw events of a
block are exactly, in their original order, the decodings of the entries whose
key equals `LockEventKey` and whose value decodes; every other entry is skipped
without effect on the rest.  Likewise the user flow's scan of a block finds the
first entry, among those whose key equals `WitnessesSignedEventKey` and whose
value decodes, that carries the awaited identifier. -/
theorem C6_collect_skips_unmatched_and_malformed (env : Env) (events : List Event)
    (lockID : Nat) (inspected : List Event) :
    collectLockEvents env events [] = events.filterMap (decodedLockEvent env) ∧
    (scanEvents env lockID events inspected).2
      = ((events.filterMap (decodedSignedEvent env)).find? (fun w => decide (w.ID = lockID))).map
          (fun w => w.Signatures) := by
  refine ⟨by simp [collectLockEvents_eq], ?_⟩
  induction events generalizing inspected with
  | nil => simp [scanEvents]
  | cons ev rest ih =>
    unfold scanEvents
    by_cases hk : ev.Key = WitnessesSignedEventKey env
    · have hk' : EventKey.IsEqual (WitnessesSignedEventKey env) ev.Key = true := by
        simp [EventKey.IsEqual, hk]
      rw [if_pos hk']
      cases hd : env.UnmarshalWitnessesSignedEvent ev.Value with
      | none =>
        simp only []
        rw [ih, List.filterMap_cons_none]
        simp [decodedSignedEvent, hk, hd]
      | some w =>
        simp only []
        rw [List.filterMap_cons_some (b := w) (by simp [decodedSignedEvent, hk, hd])]
        by_cases hid : w.ID = lockID
        · simp [hid]
        · rw [if_neg hid, ih]
          simp [List.find?_cons, hid]
    · have hk' : ¬ EventKey.IsEqual (WitnessesSignedEventKey env) ev.Key = true := by
        simp only [EventKey.IsEqual, beq_iff_eq]
        exact fun h => hk h.symm
      rw [if_neg hk', ih, List.filterMap_cons_none]
      simp [decodedSignedEvent, hk]

/-- C3: when every submission succeeds, the lock identifiers for which the
witness flow submits a Witness call while handling one block are in ascending
order and are a permutation of the identifiers of the lock events decoded from
that block, whatever the order of the events in the block. -/
theorem C3_block_submissions_sorted_perm (env : Env) (rc : RuntimeClient)
    (events : List Event) (sent : List Witness) (h : EverySubmissionSucceeds env rc) :
    ∃ ids : List Nat,
      witnessBlock env rc events sent = (sent ++ ids.map witnessBody, none) ∧
      ids.Sorted (· ≤ ·) ∧ ids.Perm (decodedLockIDs env events) := by
  refine ⟨(sortSlice lockEventLess (events.filterMap (decodedLockEvent env))).map
    (fun ev => ev.ID), witnessBlock_all_succeed env rc h events sent,
    sortSlice_ascending _, ?_⟩
  unfold decodedLockIDs
  exact (sortSlice_perm lockEventLess _).map _

/-- C3, at a block with the lock identifiers 5 and 2 between an event of
another key and a malformed one: the submissions are 2 then 5. -/
theorem C3_block_submissions_sorted_perm_witness :
    witnessBlock exampleEnv acceptingClient
        [exampleLockEvent 5, { Key := ReleaseEventKey exampleEnv, Value := [9] },
          { Key := LockEventKey exampleEnv, Value := [] }, exampleLockEvent 2] []
      = ([witnessBody 2, witnessBody 5], none) ∧
    ∃ ids : List Nat,
      witnessBlock exampleEnv acceptingClient
          [exampleLockEvent 5, { Key := ReleaseEventKey exampleEnv, Value := [9] },
            { Key := LockEventKey exampleEnv, Value := [] }, exampleLockEvent 2] []
        = ([] ++ ids.map witnessBody, none) ∧
      ids.Sorted (· ≤ ·) ∧
      ids.Perm (decodedLockIDs exampleEnv
        [exampleLockEvent 5, { Key := ReleaseEventKey exampleEnv, Value := [9] },
          { Key := LockEventKey exampleEnv, Value := [] }, exampleLockEvent 2]) :=
  ⟨by decide,
   C3_block_submissions_sorted_perm exampleEnv acceptingClient _ []
    (fun _ _ => ⟨[0, 7], { Ok := [7], Failed := none }, rfl, rfl, rfl⟩)⟩

/-- C4 (as stated, refuted): with the identifiers [5, 2] in one block and
[8, 2] in the next, identifier 2 is submitted twice; and a block delivered a
second time has all its identifiers submitted again. -/
theorem C4_identifier_witnessed_twice :
    (witness exampleEnv acceptingClient [exampleBlockA, exampleBlockB]).1.map (fun w => w.ID)
      = [2, 5, 2, 8] ∧
    (witness exampleEnv acceptingClient [exampleBlockA, exampleBlockA]).1.map (fun w => w.ID)
      = [2, 5, 2, 5] ∧
    ¬ ((witness exampleEnv acceptingClient [exampleBlockA, exampleBlockB]).1.map
        (fun w => w.ID)).Nodup := by
  decide

/-- C4 (amended): the witness flow keeps no record of the identifiers it has
witnessed.  When every `GetEvents` call and every submission succeeds, the Witness
calls submitted over a sequence of blocks are, block after block, one call for
each lock identifier decoded from the block, in ascending order within the
block; an identifier occurring again, in the same block delivered again or in
a later block, is submitted again. -/
theorem C4_submissions_are_per_block (env : Env) (rc : RuntimeClient)
    (blocks : List BlockNotification)
    (hsub : EverySubmissionSucceeds env rc) (hwatch : rc.WatchBlocks = .ok ())
    (hev : ∀ b ∈ blocks, ∃ events, b.Events = .ok events) :
    witness env rc blocks
      = ((blocks.flatMap (sortedLockIDs env)).map witnessBody, .ctxDone) := by
  unfold witness
  rw [hwatch]
  simp only [witnessLoop_all_succeed env rc hsub blocks hev, List.nil_append]

/-- C4 (amended), at the blocks with identifiers [5, 2] and [8, 2]. -/
theorem C4_submissions_are_per_block_witness :
    witness exampleEnv acceptingClient [exampleBlockA, exampleBlockB]
      = (([exampleBlockA, exampleBlockB].flatMap (sortedLockIDs exampleEnv)).map witnessBody,
          .ctxDone) ∧
    [exampleBlockA, exampleBlockB].flatMap (sortedLockIDs exampleEnv) = [2, 5, 2, 8] :=
  ⟨C4_submissions_are_per_block exampleEnv acceptingClient [exampleBlockA, exampleBlockB]
    (fun _ _ => ⟨[0, 7], { Ok := [7], Failed := none }, rfl, rfl, rfl⟩) rfl
    (fun b hb => by
      simp only [List.mem_cons, List.mem_singleton, List.not_mem_nil, or_false] at hb
      rcases hb with rfl | rfl <;> exact ⟨_, rfl⟩),
   by decide⟩

/-- C5 (as stated, refuted): when the first Witness call (identifier 2) is
rejected with module "bridge", code 1, the flow returns; identifier 5 of the
same block and identifiers 2 and 8 of the next block are never submitted. -/
theorem C5_rejection_stops_the_flow :
    witness exampleEnv rejectingClient [exampleBlockA, exampleBlockB]
      = ([witnessBody 2], .witnessFailed "module: bridge code: 1") ∧
    5 ∈ decodedLockIDs exampleEnv (eventsOf exampleBlockA) ∧
    8 ∈ decodedLockIDs exampleEnv (eventsOf exampleBlockB) ∧
    witnessBody 5 ∉ (witness exampleEnv rejectingClient [exampleBlockA, exampleBlockB]).1 ∧
    witnessBody 8 ∉ (witness exampleEnv rejectingClient [exampleBlockA, exampleBlockB]).1 := by
  decide

/-- C5 (amended): when the call result of a Witness submission has `Failed`
populated, the witness flow returns reporting that failure and the rejected
submission is its last: no later lock event of the same block and no event of
a later block is submitted. -/
theorem C5_rejected_submission_is_last (env : Env) (rc : RuntimeClient)
    (blocks : List BlockNotification) (i : Nat) (w : Witness) (raw : Bytes)
    (result : CallResult) (f : FailedCallResult)
    (hsent : (witness env rc blocks).1[i]? = some w)
    (hsub : rc.SubmitTx i (env.MarshalTransaction (witnessTransaction env w)) = .ok raw)
    (hdec : env.UnmarshalCallResult raw = some result)
    (hfail : result.Failed = some f) :
    (witness env rc blocks).1.length = i + 1 ∧
    (witness env rc blocks).2 = .witnessFailed f.String := by
  unfold witness at hsent ⊢
  cases hwatch : rc.WatchBlocks with
  | error e =>
    rw [hwatch] at hsent
    simp at hsent
  | ok u =>
    rw [hwatch] at hsent
    simp only at hsent ⊢
    obtain ⟨hlen, hexit⟩ :=
      (witnessLoop_halts env rc blocks []).2 i w raw result f (Nat.zero_le _) hsent hsub hdec
        hfail
    exact ⟨hlen, Option.some.inj hexit⟩

/-- C5 (amended), at the run whose first submission is rejected. -/
theorem C5_rejected_submission_is_last_witness :
    (witness exampleEnv rejectingClient [exampleBlockA, exampleBlockB]).1.length = 0 + 1 ∧
    (witness exampleEnv rejectingClient [exampleBlockA, exampleBlockB]).2
      = .witnessFailed (FailedCallResult.String { Module := "bridge", Code := 1 }) :=
  C5_rejected_submission_is_last exampleEnv rejectingClient [exampleBlockA, exampleBlockB]
    0 (witnessBody 2) [1, 1] { Ok := [], Failed := some { Module := "bridge", Code := 1 } }
    { Module := "bridge", Code := 1 } (by decide) (by decide) (by decide) rfl

/-! ## lemmas: the user flow's wait loop -/

theorem scanEvents_cons (env : Env) (lockID : Nat) (ev : Event) (rest inspected : List Event) :
    scanEvents env lockID (ev :: rest) inspected
      = match decodedSignedEvent env ev with
        | some w =>
          if w.ID = lockID then (inspected ++ [ev], some w.Signatures)
          else scanEvents env lockID rest (inspected ++ [ev])
        | none => scanEvents env lockID rest (inspected ++ [ev]) := by
  rw [scanEvents]
  by_cases hk : ev.Key = WitnessesSignedEventKey env
  · have hk' : EventKey.IsEqual (WitnessesSignedEventKey env) ev.Key = true := by
      simp [EventKey.IsEqual, hk]
    rw [if_pos hk']
    simp only [decodedSignedEvent, hk, if_true]
    cases env.UnmarshalWitnessesSignedEvent ev.Value <;> rfl
  · have hk' : ¬ EventKey.IsEqual (WitnessesSignedEventKey env) ev.Key = true := by
      simp only [EventKey.IsEqual, beq_iff_eq]
      exact fun h => hk h.symm
    rw [if_neg hk']
    simp only [decodedSignedEvent, hk, if_false]

theorem scanEvents_no_match (env : Env) (lockID : Nat) (events inspected : List Event)
    (h : ∀ e ∈ events, isAwaitedEvent env lockID e = false) :
    scanEvents env lockID events inspected = (inspected ++ events, none) := by
  induction events generalizing inspected with
  | nil => simp [scanEvents]
  | cons ev rest ih =>
    have hev := h ev (List.mem_cons_self _ _)
    have hrest := ih (inspected ++ [ev]) (fun e he => h e (List.mem_cons_of_mem _ he))
    rw [scanEvents_cons]
    unfold isAwaitedEvent at hev
    cases hd : decodedSignedEvent env ev with
    | none => simp [hrest]
    | some w =>
      rw [hd] at hev
      have hne : ¬ w.ID = lockID := by simpa using hev
      simp [hne, hrest]

theorem scanEvents_first_match (env : Env) (lockID : Nat)
    (before : List Event) (m : Event) (after inspected : List Event) (w : WitnessesSignedEvent)
    (h : ∀ e ∈ before, isAwaitedEvent env lockID e = false)
    (hm : decodedSignedEvent env m = some w) (hid : w.ID = lockID) :
    scanEvents env lockID (before ++ m :: after) inspected
      = (inspected ++ before ++ [m], some w.Signatures) := by
  induction before generalizing inspected with
  | nil =>
    rw [List.nil_append, scanEvents_cons, hm]
    simp [hid]
  | cons ev rest ih =>
    have hev := h ev (List.mem_cons_self _ _)
    have hrest := ih (inspected ++ [ev]) (fun e he => h e (List.mem_cons_of_mem _ he))
    rw [List.cons_append, scanEvents_cons]
    unfold isAwaitedEvent at hev
    cases hd : decodedSignedEvent env ev with
    | none => simp [hrest]
    | some w' =>
      rw [hd] at hev
      have hne : ¬ w'.ID = lockID := by simpa using hev
      simp [hne, hrest]

theorem scanEvents_some (env : Env) (lockID : Nat) (events inspected : List Event)
    (sigs : List Bytes) (h : (scanEvents env lockID events inspected).2 = some sigs) :
    ∃ m w, (scanEvents env lockID events inspected).1.getLast? = some m ∧
      decodedSignedEvent env m = some w ∧ w.ID = lockID ∧ sigs = w.Signatures := by
  induction events generalizing inspected with
  | nil => simp [scanEvents] at h
  | cons ev rest ih =>
    rw [scanEvents_cons] at h ⊢
    cases hd : decodedSignedEvent env ev with
    | none =>
      rw [hd] at h
      exact ih _ h
    | some w =>
      rw [hd] at h
      by_cases hid : w.ID = lockID
      · simp only [hid, if_true] at h ⊢
        exact ⟨ev, w, by simp, hd, hid, (Option.some.inj h).symm⟩
      · simp only [hid, if_false] at h ⊢
        exact ih _ h

theorem waitLoop_first_match (env : Env) (lockID : Nat)
    (pre : List BlockNotification) (blk : BlockNotification) (post : List BlockNotification)
    (before : List Event) (m : Event) (after : List Event) (w : WitnessesSignedEvent)
    (hpre : ∀ b ∈ pre, ∃ events, b.Events = .ok events ∧
      ∀ e ∈ events, isAwaitedEvent env lockID e = false)
    (hblk : blk.Events = .ok (before ++ m :: after))
    (hbefore : ∀ e ∈ before, isAwaitedEvent env lockID e = false)
    (hm : decodedSignedEvent env m = some w) (hid : w.ID = lockID)
    (fetched : List Nat) (inspected : List Event) :
    waitLoop env lockID (pre ++ blk :: post) fetched inspected
      = { fetched := fetched ++ (pre ++ [blk]).map (fun b => b.Round)
          inspected := inspected ++ pre.flatMap eventsOf ++ before ++ [m]
          exit := .witnessed w.Signatures } := by
  induction pre generalizing fetched inspected with
  | nil =>
    rw [List.nil_append, waitLoop]
    simp only [hblk, scanEvents_first_match env lockID before m after inspected w hbefore hm hid]
    simp
  | cons b rest ih =>
    obtain ⟨events, hevents, hnone⟩ := hpre b (List.mem_cons_self _ _)
    rw [List.cons_append, waitLoop]
    simp only [hevents, scanEvents_no_match env lockID events inspected hnone]
    rw [ih (fun b hb => hpre b (List.mem_cons_of_mem _ hb))]
    simp [eventsOf, hevents]

theorem waitLoop_witnessed (env : Env) (lockID : Nat) (blocks : List BlockNotification)
    (fetched : List Nat) (inspected : List Event) (sigs : List Bytes)
    (h : (waitLoop env lockID blocks fetched inspected).exit = .witnessed sigs) :
    ∃ m w, (waitLoop env lockID blocks fetched inspected).inspected.getLast? = some m ∧
      decodedSignedEvent env m = some w ∧ w.ID = lockID ∧ sigs = w.Signatures := by
  induction blocks generalizing fetched inspected with
  | nil => simp [waitLoop] at h
  | cons blk rest ih =>
    rw [waitLoop] at h ⊢
    cases hev : blk.Events with
    | error e =>
      rw [hev] at h
      simp at h
    | ok events =>
      rw [hev] at h
      simp only at h ⊢
      have hscan := scanEvents_some env lockID events inspected
      cases hs : scanEvents env lockID events inspected with
      | mk inspected' found =>
        rw [hs] at h hscan
        cases found with
        | none =>
          simp only at h ⊢
          exact ih _ _ h
        | some sigs' =>
          simp only at h ⊢
          have hsig : sigs' = sigs := by
            injection h
          exact hscan sigs (by rw [hsig])

/-! ## theorems: the user flow -/

/-- C7: when the call result of the user's Lock transaction has `Failed`
populated, the user flow returns reporting that (module, code) failure without
entering the wait loop: it fetches the events of no block and inspects no
event, whatever blocks are delivered. -/
theorem C7_failed_lock_never_waits (env : Env) (rc : RuntimeClient)
    (blocks : List BlockNotification) (raw : Bytes) (result : CallResult)
    (f : FailedCallResult)
    (hwatch : rc.WatchBlocks = .ok ())
    (hsub : rc.SubmitTx 0 (env.MarshalTransaction (lockTransaction env)) = .ok raw)
    (hdec : env.UnmarshalCallResult raw = some result)
    (hfail : result.Failed = some f) :
    user env rc blocks = { fetched := [], inspected := [], exit := .lockFailed f.String } := by
  unfold user
  simp [hwatch, hsub, hdec, CallResult.IsSuccess, hfail]

/-- C7, at the call result with module "bridge" and code 1, with a block
holding the awaited event ready for delivery. -/
theorem C7_failed_lock_never_waits_witness :
    user exampleEnv rejectingClient [exampleBlockC]
      = { fetched := [], inspected := [], exit := .lockFailed "module: bridge code: 1" } :=
  C7_failed_lock_never_waits exampleEnv rejectingClient [exampleBlockC] [1, 1]
    { Ok := [], Failed := some { Module := "bridge", Code := 1 } }
    { Module := "bridge", Code := 1 } rfl (by decide) (by decide) rfl

/-- C8: after a successful Lock that returned identifier `lockID`, the user
flow returns at the first event, in block-delivery order and in event order
within a block, that decodes as a witnesses-signed event with that identifier:
the events before it (other keys, malformed values, other identifiers) are
passed over, the matching event is the last one inspected, and the flow reports
its signatures.  Conversely the flow reports witness signatures only at such
an event. -/
theorem C8_user_returns_at_first_match (env : Env) (rc : RuntimeClient)
    (blocks : List BlockNotification) (raw : Bytes) (result : CallResult) (lockID : Nat)
    (hwatch : rc.WatchBlocks = .ok ())
    (hsub : rc.SubmitTx 0 (env.MarshalTransaction (lockTransaction env)) = .ok raw)
    (hdec : env.UnmarshalCallResult raw = some result)
    (hok : result.Failed = none)
    (hlock : env.UnmarshalLockResult result.Ok = some { ID := lockID }) :
    (∀ (pre : List BlockNotification) (blk : BlockNotification) (post : List BlockNotification)
        (before : List Event) (m : Event) (after : List Event) (w : WitnessesSignedEvent),
      blocks = pre ++ blk :: post →
      (∀ b ∈ pre, ∃ events, b.Events = .ok events ∧
        ∀ e ∈ events, isAwaitedEvent env lockID e = false) →
      blk.Events = .ok (before ++ m :: after) →
      (∀ e ∈ before, isAwaitedEvent env lockID e = false) →
      decodedSignedEvent env m = some w → w.ID = lockID →
      user env rc blocks
        = { fetched := (pre ++ [blk]).map (fun b => b.Round)
            inspected := pre.flatMap eventsOf ++ before ++ [m]
            exit := .witnessed w.Signatures }) ∧
    (∀ sigs : List Bytes, (user env rc blocks).exit = .witnessed sigs →
      ∃ m w, (user env rc blocks).inspected.getLast? = some m ∧
        decodedSignedEvent env m = some w ∧ w.ID = lockID ∧ sigs = w.Signatures) := by
  have huser : user env rc blocks = waitLoop env lockID blocks [] [] := by
    unfold user
    simp [hwatch, hsub, hdec, CallResult.IsSuccess, hok, hlock]
  refine ⟨?_, ?_⟩
  · intro pre blk post before m after w hblocks hpre hblk hbefore hm hid
    rw [huser, hblocks,
      waitLoop_first_match env lockID pre blk post before m after w hpre hblk hbefore hm hid]
    simp
  · intro sigs h
    rw [huser] at h ⊢
    exact waitLoop_witnessed env lockID blocks [] [] sigs h

/-- C8, at a run where the Lock returned identifier 7: the first block has no
witnesses-signed event; in the second the flow passes over the event for
identifier 9, a malformed one and a lock event, returns at the event for
identifier 7 and never looks at the event after it nor at the third block. -/
theorem C8_user_returns_at_first_match_witness :
    user exampleEnv acceptingClient [exampleBlockA, exampleBlockC, exampleBlockB]
      = { fetched := [1, 3]
          inspected := eventsOf exampleBlockA ++
            [exampleSignedEvent 9, { Key := WitnessesSignedEventKey exampleEnv, Value := [] },
              exampleLockEvent 7, exampleSignedEvent 7]
          exit := .witnessed [placeholderSignature] } :=
  (C8_user_returns_at_first_match exampleEnv acceptingClient
      [exampleBlockA, exampleBlockC, exampleBlockB] [0, 7] { Ok := [7], Failed := none } 7
      rfl rfl rfl rfl rfl).1
    [exampleBlockA] exampleBlockC [exampleBlockB]
    [exampleSignedEvent 9, { Key := WitnessesSignedEventKey exampleEnv, Value := [] },
      exampleLockEvent 7]
    (exampleSignedEvent 7) [exampleSignedEvent 7]
    { ID := 7, Signatures := [placeholderSignature] }
    rfl
    (fun b hb => by
      simp only [List.mem_singleton] at hb
      subst hb
      exact ⟨_, rfl, by decide⟩)
    rfl (by decide) (by decide) rfl

/-! ## theorems: encoding public keys -/

/-- C11 (the code at the failing input): for the Secp256k1 key with bytes
2, 1 `MarshalBinary` does not return an encoding, it panics with "not
implemented", so there is nothing to decode; `UnmarshalBinary` panics likewise.
The same holds for every Secp256k1 key and every input. -/
theorem C11_secp256k1_marshal_panics :
    Secp256k1.PublicKey.MarshalBinary { bytes := [2, 1] } = .panicked "not implemented" ∧
    (¬ ∃ data, Secp256k1.PublicKey.MarshalBinary { bytes := [2, 1] } = .ok data) ∧
    Secp256k1.PublicKey.UnmarshalBinary [2, 1] = .panicked "not implemented" ∧
    (∀ (k : Secp256k1.PublicKey) (input : Bytes),
      Secp256k1.PublicKey.MarshalBinary k = .panicked "not implemented" ∧
      (∀ k', Secp256k1.PublicKey.UnmarshalBinary input ≠ .ok k')) := by
  refine ⟨rfl, ?_, rfl, fun k input => ⟨rfl, fun k' h => ?_⟩⟩
  · rintro ⟨data, h⟩
    cases h
  · cases h

end OasisBridge
